import Mathlib

/-!
Verification of `src/python/github_pr_funcs.py`.

The module resolves a GitHub pull-request URL into a dokku deployment
descriptor: it decomposes the URL with a regular expression, fetches the PR
record from the GitHub API, extracts a dokku deployment link from the PR
body, parses the team number out of the repository name, checks the slot
number against the team number, and assembles the descriptor.

Strings are modelled as `List Char` (the code only manipulates ASCII text).
Each Python regular expression used by the code is embedded as a hand-written
deterministic matcher; every character class in those patterns excludes the
character that must follow it, so the greedy backtracking semantics of
Python's `re` collapses to the deterministic reading implemented here.
`re.match` anchors at the start of the string only (a prefix match);
`re.search` tries every start position from the left.  Network I/O in
`get_pr_from_raw_pr_url` is modelled by passing the HTTP response
(status code, raw text, parsed JSON document) as an explicit argument.
A Python `None` subscription (`None[...]`) raises `TypeError`; it is
modelled by the error value `Err.typeErrorNoneSubscript`.
-/

deriving instance DecidableEq for Except

/-- Characters removed by Python's `str.strip()` (its ASCII whitespace). -/
def isPySpace (c : Char) : Bool :=
  c = ' ' || c = '\t' || c = '\n' || c = '\r' || c = '\x0b' || c = '\x0c'

/-- Python `str.strip()`: drop leading and trailing whitespace. -/
def pyStrip (s : List Char) : List Char :=
  ((s.dropWhile isPySpace).reverse.dropWhile isPySpace).reverse

/-- Python `str.lower()` on the ASCII strings this code handles. -/
def pyLower (s : List Char) : List Char :=
  s.map Char.toLower

/-- The character class `[^/]`. -/
def notSlash (c : Char) : Bool := c ≠ '/'

/-- The character class `[^\.]`. -/
def notDot (c : Char) : Bool := c ≠ '.'

/-- The character class `[^\-]`. -/
def notHyphen (c : Char) : Bool := c ≠ '-'

/-- Consume a literal prefix; on success return the rest of the input.
This is the embedding of a literal run inside a regular expression. -/
def matchLit : List Char → List Char → Option (List Char)
  | [], s => some s
  | _ :: _, [] => none
  | c :: cs, d :: ds => if c = d then matchLit cs ds else none

/-- Consume one expected literal character. -/
def expectChar (c : Char) : List Char → Option (List Char)
  | [] => none
  | d :: r => if d = c then some r else none

/-- Python `re.search`: try the matcher at every start position, left to
right, and return the first (leftmost) successful match. -/
def reSearch {α : Type} (m : List Char → Option α) : List Char → Option α
  | [] => m []
  | c :: rest =>
    match m (c :: rest) with
    | some r => some r
    | none => reSearch m rest

/-- The `groupdict` of `separate_raw_pr_url`'s pattern. -/
structure PRComponents where
  org : List Char
  repo : List Char
  pr_number : List Char
deriving DecidableEq

/-- The `groupdict` of `get_parts_from_repo_name`'s pattern. -/
structure RepoParts where
  projname : List Char
  qxx : List Char
  team_num : List Char
deriving DecidableEq

/-- The `groupdict` of `get_dokku_link_from_pr_data`'s pattern. -/
structure DokkuLink where
  appname : List Char
  dokku_num : List Char
deriving DecidableEq

/-- The parsed PR record (a JSON document).  The code reads only the
free-text `body` (via `.get('body', '')`, so `none` means the key is
absent) and the nested `head.ref` branch name (collapsed to an `Option`:
`none` makes `pr_data['head']['ref']` raise `KeyError`).  `extra` stands
for all the other fields of the opaque document, which the code never
inspects. -/
structure PRData where
  body : Option (List Char)
  head_ref : Option (List Char)
  extra : List (List Char × List Char)
deriving DecidableEq

/-- The HTTP response of the single `requests.get` call:
`status_code`, `text` (the raw body) and `json` (the parsed document). -/
structure HttpResponse where
  status_code : Nat
  text : List Char
  json : PRData
deriving DecidableEq

/-- The failures the pipeline can surface.  `malformedURL`, `remoteFetch`,
`teamSlotMismatch` and `branchNotFound` are the four `ValueError`s raised
explicitly by the code, each carrying the data interpolated into its
message.  `typeErrorNoneSubscript` is the implicit Python `TypeError`
raised by subscripting `None` (an optional result accessed
unconditionally).  `missingDeploymentLink` is the named error of the
specification's taxonomy for an absent deployment link; the code itself
never raises it. -/
inductive Err where
  | malformedURL (raw : List Char)
  | remoteFetch (status : Nat) (body : List Char)
  | missingDeploymentLink
  | typeErrorNoneSubscript
  | teamSlotMismatch (dokku_num team_num repo : List Char)
  | branchNotFound (raw : List Char)
deriving DecidableEq

/-- The full deployment descriptor (the dictionary serialized by
`get_dokku_command_elements_from_raw_pr_url`), field for field. -/
structure DokkuDescriptor where
  app : List Char
  dokku : List Char
  repo : List Char
  branch : List Char
  owner : List Char
  repo_name : List Char
  pr_url : List Char
deriving DecidableEq

/-- The reduced descriptor serialized by
`get_repo_and_branch_from_raw_pr_url`. -/
structure RepoBranch where
  repo : List Char
  branch : List Char
deriving DecidableEq

/-- The pattern of `separate_raw_pr_url`, applied with `re.match` (prefix
anchored):
`https://github\.com/(?P<org>[^/]+)/(?P<repo>[^/]+)/pull/(?P<pr_number>\d+)`.
`[^/]+` is a nonempty greedy run of non-slash characters (it must be
followed by a literal `/`, so it ends exactly at the next slash) and
`\d+` at the end of the pattern is the maximal nonempty digit run. -/
def matchPrUrl (s : List Char) : Option PRComponents :=
  (matchLit "https://github.com/".data s).bind fun r1 =>
  let org := r1.takeWhile notSlash
  if org = [] then none else
  (expectChar '/' (r1.dropWhile notSlash)).bind fun r2 =>
  let repo := r2.takeWhile notSlash
  if repo = [] then none else
  (matchLit "/pull/".data (r2.dropWhile notSlash)).bind fun r3 =>
  let num := r3.takeWhile Char.isDigit
  if num = [] then none else some ⟨org, repo, num⟩

/-- `separate_raw_pr_url`: decompose a raw PR URL; on a failed match raise
`ValueError(f"Invalid GitHub pull request URL format: <{raw_pr_url}>")`;
otherwise lowercase `org` and `repo` and strip `pr_number`. -/
def separate_raw_pr_url (raw_pr_url : List Char) : Except Err PRComponents :=
  match matchPrUrl raw_pr_url with
  | none => .error (.malformedURL raw_pr_url)
  | some components =>
    .ok ⟨pyLower components.org, pyLower components.repo,
         pyStrip components.pr_number⟩

/-- `get_pr_from_raw_pr_url`: decompose the URL, issue one GET to
`https://api.github.com/repos/{org}/{repo}/pulls/{pr_number}` with the
bearer token (the request itself is I/O, modelled by the `response`
argument), raise
`ValueError(f"Failed to fetch pull request: {status_code} {text}")`
on any non-200 status, and otherwise return `response.json()` verbatim. -/
def get_pr_from_raw_pr_url (GITHUB_TOKEN raw_pr_url : List Char)
    (response : HttpResponse) : Except Err PRData :=
  match separate_raw_pr_url raw_pr_url with
  | .error e => .error e
  | .ok _components =>
    if response.status_code ≠ 200 then
      .error (.remoteFetch response.status_code response.text)
    else
      .ok response.json

/-- The pattern of `get_dokku_link_from_pr_data` attempted at one start
position:
`https://(?P<appname>[^\.]+)\.dokku-(?P<dokku_num>\d\d).cs.ucsb.edu`.
`[^\.]+` is a nonempty run of non-dot characters ending at the next dot.
The three dots in front of `cs`, `ucsb` and `edu` are NOT escaped in the
source, so each is the regex wildcard `.`: any single character except a
newline. -/
def matchDokkuAt (s : List Char) : Option DokkuLink :=
  (matchLit "https://".data s).bind fun r1 =>
  let appname := r1.takeWhile notDot
  if appname = [] then none else
  (expectChar '.' (r1.dropWhile notDot)).bind fun r2 =>
  (matchLit "dokku-".data r2).bind fun r3 =>
  match r3 with
  | d1 :: d2 :: a1 :: c1 :: s1 :: a2 :: u1 :: c2 :: s2 :: b1 ::
      a3 :: e1 :: d3 :: u2 :: _ =>
    if d1.isDigit ∧ d2.isDigit ∧
        a1 ≠ '\n' ∧ c1 = 'c' ∧ s1 = 's' ∧
        a2 ≠ '\n' ∧ u1 = 'u' ∧ c2 = 'c' ∧ s2 = 's' ∧ b1 = 'b' ∧
        a3 ≠ '\n' ∧ e1 = 'e' ∧ d3 = 'd' ∧ u2 = 'u'
    then some ⟨appname, [d1, d2]⟩ else none
  | _ => none

/-- `get_dokku_link_from_pr_data`: `re.search` the pattern over
`pr_data.get('body', '')` and return the first match's groups, or `None`. -/
def get_dokku_link_from_pr_data (pr_data : PRData) : Option DokkuLink :=
  reSearch matchDokkuAt (pr_data.body.getD [])

/-- The pattern of `get_parts_from_repo_name` attempted at one start
position:
`proj-(?P<projname>[^\-]+)-(?P<qxx>[fwsm]\d\d)-(?P<team_num>\d\d)`.
`[^\-]+` is a nonempty run of non-hyphen characters ending at the next
hyphen. -/
def matchRepoAt (s : List Char) : Option RepoParts :=
  (matchLit "proj-".data s).bind fun r1 =>
  let projname := r1.takeWhile notHyphen
  if projname = [] then none else
  (expectChar '-' (r1.dropWhile notHyphen)).bind fun r2 =>
  match r2 with
  | q :: d1 :: d2 :: h2 :: t1 :: t2 :: _ =>
    if (q = 'f' ∨ q = 'w' ∨ q = 's' ∨ q = 'm') ∧
        d1.isDigit ∧ d2.isDigit ∧ h2 = '-' ∧ t1.isDigit ∧ t2.isDigit
    then some ⟨projname, [q, d1, d2], [t1, t2]⟩ else none
  | _ => none

/-- `get_parts_from_repo_name`: `re.search` the pattern over the repository
name and return the first match's groups, or `None`. -/
def get_parts_from_repo_name (repo_name : List Char) : Option RepoParts :=
  reSearch matchRepoAt repo_name

/-- The f-string `f"https://github.com/{org}/{repo}"`. -/
def repoUrlOf (c : PRComponents) : List Char :=
  "https://github.com/".data ++ c.org ++ ['/'] ++ c.repo

/-- `get_dokku_command_elements_from_raw_pr_url`, the full build:
decompose the URL, parse the repository name, fetch the PR record,
extract the dokku link, run the slot/team consistency check
`if dokku_app['dokku_num'] != "00" and
    dokku_app['dokku_num'] != repo_name_components['team_num']`,
then read `pr_data['head']['ref']` (a `KeyError` becomes the
"Could not find branch name" `ValueError`) and assemble the descriptor.
Python evaluates the `and` left to right and short-circuits, and
subscripting an optional result that is `None` raises `TypeError`. -/
def get_dokku_command_elements_from_raw_pr_url
    (GITHUB_TOKEN raw_pr_url : List Char) (response : HttpResponse) :
    Except Err DokkuDescriptor :=
  match separate_raw_pr_url raw_pr_url with
  | .error e => .error e
  | .ok raw_pr_url_components =>
    let repo_name_components :=
      get_parts_from_repo_name raw_pr_url_components.repo
    match get_pr_from_raw_pr_url GITHUB_TOKEN raw_pr_url response with
    | .error e => .error e
    | .ok pr_data =>
      match get_dokku_link_from_pr_data pr_data with
      | none => .error .typeErrorNoneSubscript
      | some dokku_app =>
        let finish : Unit → Except Err DokkuDescriptor := fun _ =>
          match pr_data.head_ref with
          | none => .error (.branchNotFound raw_pr_url)
          | some branch =>
            .ok ⟨dokku_app.appname, dokku_app.dokku_num,
                 repoUrlOf raw_pr_url_components, branch,
                 raw_pr_url_components.org, raw_pr_url_components.repo,
                 raw_pr_url⟩
        if dokku_app.dokku_num ≠ "00".data then
          match repo_name_components with
          | none => .error .typeErrorNoneSubscript
          | some parts =>
            if dokku_app.dokku_num ≠ parts.team_num then
              .error (.teamSlotMismatch dokku_app.dokku_num parts.team_num
                        raw_pr_url_components.repo)
            else finish ()
        else finish ()

/-- `get_repo_and_branch_from_raw_pr_url`, the reduced build: decompose the
URL, fetch the PR record, read `pr_data['head']['ref']` (a `KeyError`
becomes the "Could not find branch name" `ValueError`) and return only the
repo URL and the branch. -/
def get_repo_and_branch_from_raw_pr_url
    (GITHUB_TOKEN raw_pr_url : List Char) (response : HttpResponse) :
    Except Err RepoBranch :=
  match separate_raw_pr_url raw_pr_url with
  | .error e => .error e
  | .ok raw_pr_url_components =>
    match get_pr_from_raw_pr_url GITHUB_TOKEN raw_pr_url response with
    | .error e => .error e
    | .ok pr_data =>
      match pr_data.head_ref with
      | none => .error (.branchNotFound raw_pr_url)
      | some branch =>
        .ok ⟨repoUrlOf raw_pr_url_components, branch⟩

/-! ## Spec-side shapes

These definitions render the shapes claimed in the specification in
declarative form, to be compared with the matchers embedded from the
source.  The right-nested `++`/`::` spellings keep the decompositions
unambiguous. -/

/-- Modelled from the spec: the exact fixed URL shape
`https://<host-domain>/<org>/<repo>/pull/<digits>` consuming the whole
string, with the literal host domain, one nonempty slash-free segment for
the organization, one for the repository, and nothing after the nonempty
digit run. -/
def exactPrUrlShape (s : List Char) : Bool :=
  match matchLit "https://github.com/".data s with
  | none => false
  | some r1 =>
    let org := r1.takeWhile notSlash
    if org = [] then false else
    match r1.dropWhile notSlash with
    | '/' :: r2 =>
      let repo := r2.takeWhile notSlash
      if repo = [] then false else
      match matchLit "/pull/".data (r2.dropWhile notSlash) with
      | none => false
      | some r3 => !r3.isEmpty && r3.all Char.isDigit
    | _ => false

/-- The URL begins with
`https://github.com/<org>/<repo>/pull/<digits>` — the shape accepted by
the code's prefix-anchored `re.match`; `rest` is the arbitrary trailing
text the prefix match never looks at. -/
def PrUrlPrefixShape (s : List Char) : Prop :=
  ∃ org repo num rest,
    s = "https://github.com/".data ++
          (org ++ '/' :: (repo ++ ("/pull/".data ++ (num ++ rest))))
    ∧ org ≠ [] ∧ (∀ c ∈ org, c ≠ '/')
    ∧ repo ≠ [] ∧ (∀ c ∈ repo, c ≠ '/')
    ∧ num ≠ [] ∧ (∀ c ∈ num, c.isDigit)

/-- The string starts with an instance of the repository-name pattern
`proj-<project>-<term><yy>-<team>`: a nonempty hyphen-free project name,
a term letter among f/w/s/m, a two-digit year and a two-digit team
number. -/
def RepoPatternAt (s : List Char) : Prop :=
  ∃ projname q d1 d2 t1 t2 rest,
    s = "proj-".data ++
          (projname ++ '-' :: q :: d1 :: d2 :: '-' :: t1 :: t2 :: rest)
    ∧ projname ≠ [] ∧ (∀ c ∈ projname, c ≠ '-')
    ∧ (q = 'f' ∨ q = 'w' ∨ q = 's' ∨ q = 'm')
    ∧ d1.isDigit ∧ d2.isDigit ∧ t1.isDigit ∧ t2.isDigit

/-- Some position of the string starts an instance of the repository-name
pattern. -/
def ContainsRepoPattern (s : List Char) : Prop :=
  ∃ pre tail, s = pre ++ tail ∧ RepoPatternAt tail

/-- The string starts with an instance of the deployment-link pattern the
code actually uses, yielding exactly the link `l`: after
`https://<app-name>.dokku-<NN>` the three separators in front of `cs`,
`ucsb` and `edu` are wildcards (any character but a newline), because the
source leaves those dots unescaped. -/
def CodeLinkAtIs (s : List Char) (l : DokkuLink) : Prop :=
  ∃ d1 d2 a1 a2 a3 rest,
    s = "https://".data ++
          (l.appname ++ '.' :: ("dokku-".data ++
            d1 :: d2 :: a1 :: 'c' :: 's' :: a2 :: 'u' :: 'c' :: 's' ::
            'b' :: a3 :: 'e' :: 'd' :: 'u' :: rest))
    ∧ l.dokku_num = [d1, d2]
    ∧ l.appname ≠ [] ∧ (∀ c ∈ l.appname, c ≠ '.')
    ∧ d1.isDigit ∧ d2.isDigit ∧ a1 ≠ '\n' ∧ a2 ≠ '\n' ∧ a3 ≠ '\n'

/-- The string starts with an instance of the code's deployment-link
pattern. -/
def CodeLinkAt (s : List Char) : Prop :=
  ∃ l, CodeLinkAtIs s l

/-- Some position of the string starts an instance of the code's
deployment-link pattern. -/
def ContainsCodeLink (s : List Char) : Prop :=
  ∃ pre tail, s = pre ++ tail ∧ CodeLinkAt tail

/-- Modelled from the spec: the string starts with a substring of the
claimed form `https://<app-name>.dokku-<NN>.<host-domain>` with the
literal host domain `cs.ucsb.edu` and its literal dots — `<app-name>` a
nonempty run of non-dot characters, `<NN>` exactly two digits. -/
def claimLinkAt (s : List Char) : Bool :=
  match matchLit "https://".data s with
  | none => false
  | some r1 =>
    let appname := r1.takeWhile notDot
    if appname = [] then false else
    match r1.dropWhile notDot with
    | '.' :: r2 =>
      match matchLit "dokku-".data r2 with
      | none => false
      | some r3 =>
        match r3 with
        | d1 :: d2 :: r4 =>
          d1.isDigit && d2.isDigit && (matchLit ".cs.ucsb.edu".data r4).isSome
        | _ => false
    | _ => false

/-- Modelled from the spec: some position of the string starts a substring
of the claimed literal form. -/
def claimContainsLink : List Char → Bool
  | [] => claimLinkAt []
  | c :: rest => claimLinkAt (c :: rest) || claimContainsLink rest

/-! ## Basic lemmas about the matcher building blocks -/

theorem matchLit_append (p s : List Char) : matchLit p (p ++ s) = some s := by
  induction p with
  | nil => rfl
  | cons c cs ih => simp [matchLit, ih]

theorem matchLit_eq_some {p s r : List Char} (h : matchLit p s = some r) :
    s = p ++ r := by
  induction p generalizing s with
  | nil => simpa [matchLit] using h
  | cons c cs ih =>
    cases s with
    | nil => simp [matchLit] at h
    | cons d ds =>
      by_cases hc : c = d
      · subst hc
        simp only [matchLit, if_pos rfl] at h
        simpa using ih h
      · simp [matchLit, hc] at h

theorem takeWhile_append_stop {p : Char → Bool} {a : List Char} {d : Char}
    (b : List Char) (ha : ∀ c ∈ a, p c = true) (hd : p d = false) :
    (a ++ d :: b).takeWhile p = a := by
  induction a with
  | nil => simp [List.takeWhile, hd]
  | cons x xs ih =>
    have hx : p x = true := ha x (by simp)
    simp only [List.cons_append, List.takeWhile_cons, hx, if_true]
    rw [ih (fun c hc => ha c (by simp [hc]))]

theorem dropWhile_append_stop {p : Char → Bool} {a : List Char} {d : Char}
    (b : List Char) (ha : ∀ c ∈ a, p c = true) (hd : p d = false) :
    (a ++ d :: b).dropWhile p = d :: b := by
  induction a with
  | nil => simp [List.dropWhile, hd]
  | cons x xs ih =>
    have hx : p x = true := ha x (by simp)
    simp only [List.cons_append, List.dropWhile_cons, hx, if_true]
    exact ih (fun c hc => ha c (by simp [hc]))

theorem takeWhile_of_all {p : Char → Bool} {a : List Char}
    (ha : ∀ c ∈ a, p c = true) : a.takeWhile p = a := by
  induction a with
  | nil => rfl
  | cons x xs ih =>
    have hx : p x = true := ha x (by simp)
    simp only [List.takeWhile_cons, hx, if_true]
    rw [ih (fun c hc => ha c (by simp [hc]))]

theorem dropWhile_of_all_not {p : Char → Bool} {a : List Char}
    (ha : ∀ c ∈ a, p c = false) : a.dropWhile p = a := by
  cases a with
  | nil => rfl
  | cons x xs =>
    have hx : p x = false := ha x (by simp)
    simp [List.dropWhile_cons, hx]

theorem mem_of_takeWhile {p : Char → Bool} {a : List Char} {c : Char}
    (h : c ∈ a.takeWhile p) : p c = true := by
  induction a with
  | nil => simp [List.takeWhile] at h
  | cons x xs ih =>
    cases hx : p x with
    | true =>
      simp only [List.takeWhile_cons, hx, if_true, List.mem_cons] at h
      rcases h with rfl | h
      · exact hx
      · exact ih h
    | false => simp [List.takeWhile_cons, hx] at h

theorem dropWhile_head_false {p : Char → Bool} {a : List Char} {c : Char}
    {r : List Char} (h : a.dropWhile p = c :: r) : p c = false := by
  induction a with
  | nil => simp [List.dropWhile] at h
  | cons x xs ih =>
    cases hx : p x with
    | true =>
      simp only [List.dropWhile_cons, hx, if_true] at h
      exact ih h
    | false =>
      simp only [List.dropWhile_cons, hx, Bool.false_eq_true, if_false] at h
      rcases h with ⟨rfl, rfl⟩
      exact hx

theorem pyStrip_of_no_space {s : List Char}
    (h : ∀ c ∈ s, isPySpace c = false) : pyStrip s = s := by
  unfold pyStrip
  rw [dropWhile_of_all_not h,
      dropWhile_of_all_not (fun c hc => h c (List.mem_reverse.mp hc)),
      List.reverse_reverse]

/-! ## Lemmas about `reSearch` (the `re.search` embedding) -/

theorem reSearch_eq_none_iff {α : Type} {m : List Char → Option α}
    {s : List Char} :
    reSearch m s = none ↔ ∀ pre tail, s = pre ++ tail → m tail = none := by
  induction s with
  | nil =>
    simp only [reSearch]
    constructor
    · intro h pre tail hdec
      obtain ⟨-, htail⟩ := List.append_eq_nil.mp hdec.symm
      rw [htail]
      exact h
    · intro h
      exact h [] [] rfl
  | cons c rest ih =>
    constructor
    · intro h pre tail hdec
      simp only [reSearch] at h
      cases hm : m (c :: rest) with
      | some r => rw [hm] at h; exact absurd h (by simp)
      | none =>
        rw [hm] at h
        cases pre with
        | nil =>
          have htail : tail = c :: rest := by simpa using hdec.symm
          rw [htail]
          exact hm
        | cons x xs =>
          rw [List.cons_append] at hdec
          exact ih.mp h xs tail (List.cons.inj hdec).2
    · intro h
      simp only [reSearch]
      rw [show m (c :: rest) = none from h [] (c :: rest) rfl]
      exact ih.mpr (fun pre tail hdec =>
        h (c :: pre) tail (by rw [hdec, List.cons_append]))

theorem reSearch_eq_some {α : Type} {m : List Char → Option α}
    {s : List Char} {r : α} (h : reSearch m s = some r) :
    ∃ pre tail, s = pre ++ tail ∧ m tail = some r ∧
      ∀ pre' tail', s = pre' ++ tail' → pre'.length < pre.length →
        m tail' = none := by
  induction s with
  | nil =>
    refine ⟨[], [], rfl, by simpa [reSearch] using h, ?_⟩
    intro pre' tail' _ hlt
    simp at hlt
  | cons c rest ih =>
    simp only [reSearch] at h
    cases hm : m (c :: rest) with
    | some r' =>
      rw [hm] at h
      have hr : r' = r := by simpa using h
      subst hr
      exact ⟨[], c :: rest, rfl, hm, fun pre' tail' _ hlt => by simp at hlt⟩
    | none =>
      rw [hm] at h
      obtain ⟨pre, tail, hdec, hsome, hmin⟩ := ih h
      refine ⟨c :: pre, tail, by rw [hdec, List.cons_append], hsome, ?_⟩
      intro pre' tail' hdec' hlt
      cases pre' with
      | nil =>
        have htail : tail' = c :: rest := by simpa using hdec'.symm
        rw [htail]
        exact hm
      | cons x xs =>
        rw [List.cons_append] at hdec'
        have h2 : rest = xs ++ tail' := (List.cons.inj hdec').2
        simp only [List.length_cons] at hlt
        exact hmin xs tail' h2 (Nat.lt_of_succ_lt_succ hlt)

theorem reSearch_ne_none_of_decomp {α : Type} {m : List Char → Option α}
    {s pre tail : List Char} {r : α} (hdec : s = pre ++ tail)
    (hm : m tail = some r) : reSearch m s ≠ none := by
  intro h
  have := reSearch_eq_none_iff.mp h pre tail hdec
  rw [hm] at this
  cases this

theorem expectChar_cons (c : Char) (r : List Char) :
    expectChar c (c :: r) = some r := by
  simp [expectChar]

theorem expectChar_eq_some {c : Char} {s r : List Char}
    (h : expectChar c s = some r) : s = c :: r := by
  cases s with
  | nil => simp [expectChar] at h
  | cons d ds =>
    by_cases hd : d = c
    · subst hd
      simp only [expectChar, if_pos rfl] at h
      rw [← Option.some.inj h]
    · simp [expectChar, hd] at h

theorem isPySpace_eq_false_of_isDigit {c : Char} (h : c.isDigit = true) :
    isPySpace c = false := by
  cases hsp : isPySpace c with
  | false => rfl
  | true =>
    exfalso
    unfold isPySpace at hsp
    simp only [Bool.or_eq_true, decide_eq_true_eq] at hsp
    have hsp' : c = ' ' ∨ c = '\t' ∨ c = '\n' ∨ c = '\r' ∨ c = '\x0b' ∨
        c = '\x0c' := by tauto
    rcases hsp' with rfl | rfl | rfl | rfl | rfl | rfl <;>
      exact absurd h (by decide)

/-! ## The URL matcher against the prefix shape -/

theorem matchPrUrl_compute {org repo num : List Char} (rest : List Char)
    (ho : org ≠ []) (ho' : ∀ c ∈ org, c ≠ '/')
    (hr : repo ≠ []) (hr' : ∀ c ∈ repo, c ≠ '/')
    (hn : num ≠ []) (hn' : ∀ c ∈ num, c.isDigit) :
    matchPrUrl ("https://github.com/".data ++
        (org ++ '/' :: (repo ++ ("/pull/".data ++ (num ++ rest))))) =
      some ⟨org, repo, (num ++ rest).takeWhile Char.isDigit⟩ := by
  have ho2 : ∀ c ∈ org, notSlash c = true := fun c hc => by
    simp [notSlash, ho' c hc]
  have hr2 : ∀ c ∈ repo, notSlash c = true := fun c hc => by
    simp [notSlash, hr' c hc]
  have hsl : notSlash '/' = false := by decide
  have hpull : "/pull/".data ++ (num ++ rest) =
      '/' :: ("pull/".data ++ (num ++ rest)) := rfl
  have hnn : (num ++ rest).takeWhile Char.isDigit ≠ [] := by
    cases num with
    | nil => exact absurd rfl hn
    | cons n ns =>
      have hd : Char.isDigit n = true := hn' n (by simp)
      simp [List.takeWhile_cons, hd]
  simp only [matchPrUrl, matchLit_append, Option.some_bind]
  rw [takeWhile_append_stop _ ho2 hsl, dropWhile_append_stop _ ho2 hsl]
  rw [if_neg ho, expectChar_cons, Option.some_bind]
  rw [hpull, takeWhile_append_stop _ hr2 hsl, dropWhile_append_stop _ hr2 hsl]
  rw [if_neg hr]
  rw [show matchLit "/pull/".data ('/' :: ("pull/".data ++ (num ++ rest))) =
        some (num ++ rest) from matchLit_append _ _]
  rw [Option.some_bind, if_neg hnn]

theorem matchPrUrl_shape {s : List Char} {c : PRComponents}
    (h : matchPrUrl s = some c) : PrUrlPrefixShape s := by
  unfold matchPrUrl at h
  cases hm : matchLit "https://github.com/".data s with
  | none => rw [hm] at h; exact Option.noConfusion h
  | some r1 =>
    rw [hm, Option.some_bind] at h
    have hs : s = "https://github.com/".data ++ r1 := matchLit_eq_some hm
    by_cases ho : r1.takeWhile notSlash = []
    · rw [if_pos ho] at h; exact Option.noConfusion h
    · rw [if_neg ho] at h
      cases he : expectChar '/' (r1.dropWhile notSlash) with
      | none => rw [he] at h; exact Option.noConfusion h
      | some r2 =>
        rw [he, Option.some_bind] at h
        have hr1 : r1.dropWhile notSlash = '/' :: r2 := expectChar_eq_some he
        by_cases hrp : r2.takeWhile notSlash = []
        · rw [if_pos hrp] at h; exact Option.noConfusion h
        · rw [if_neg hrp] at h
          cases hm2 : matchLit "/pull/".data (r2.dropWhile notSlash) with
          | none => rw [hm2] at h; exact Option.noConfusion h
          | some r3 =>
            rw [hm2, Option.some_bind] at h
            have hr2 : r2.dropWhile notSlash = "/pull/".data ++ r3 :=
              matchLit_eq_some hm2
            by_cases hnp : r3.takeWhile Char.isDigit = []
            · rw [if_pos hnp] at h; exact Option.noConfusion h
            · rw [if_neg hnp] at h
              have e1 : r1 = r1.takeWhile notSlash ++ '/' :: r2 := by
                have h0 := (List.takeWhile_append_dropWhile notSlash r1).symm
                rw [hr1] at h0
                exact h0
              have e2 : r2 = r2.takeWhile notSlash ++
                  ("/pull/".data ++ r3) := by
                have h0 := (List.takeWhile_append_dropWhile notSlash r2).symm
                rw [hr2] at h0
                exact h0
              have e3 : r3 = r3.takeWhile Char.isDigit ++
                  r3.dropWhile Char.isDigit :=
                (List.takeWhile_append_dropWhile _ _).symm
              refine ⟨r1.takeWhile notSlash, r2.takeWhile notSlash,
                r3.takeWhile Char.isDigit, r3.dropWhile Char.isDigit,
                ?_, ho, ?_, hrp, ?_, hnp, ?_⟩
              · rw [hs]
                conv_lhs => rw [e1, e2, e3]
              · intro x hx
                have := mem_of_takeWhile hx
                simpa [notSlash] using this
              · intro x hx
                have := mem_of_takeWhile hx
                simpa [notSlash] using this
              · intro x hx
                exact mem_of_takeWhile hx

theorem shape_matchPrUrl {s : List Char} (h : PrUrlPrefixShape s) :
    ∃ c, matchPrUrl s = some c := by
  obtain ⟨org, repo, num, rest, hdec, ho, ho', hr, hr', hn, hn'⟩ := h
  exact ⟨⟨org, repo, (num ++ rest).takeWhile Char.isDigit⟩,
    hdec ▸ matchPrUrl_compute rest ho ho' hr hr' hn hn'⟩

/-! ## The repository-name matcher against its pattern -/

theorem matchRepoAt_compute {projname : List Char} {q d1 d2 t1 t2 : Char}
    (rest : List Char) (hp : projname ≠ []) (hp' : ∀ c ∈ projname, c ≠ '-')
    (hq : q = 'f' ∨ q = 'w' ∨ q = 's' ∨ q = 'm')
    (hd1 : d1.isDigit) (hd2 : d2.isDigit) (ht1 : t1.isDigit)
    (ht2 : t2.isDigit) :
    matchRepoAt ("proj-".data ++
        (projname ++ '-' :: q :: d1 :: d2 :: '-' :: t1 :: t2 :: rest)) =
      some ⟨projname, [q, d1, d2], [t1, t2]⟩ := by
  have hp2 : ∀ c ∈ projname, notHyphen c = true := fun c hc => by
    simp [notHyphen, hp' c hc]
  have hh : notHyphen '-' = false := by decide
  simp only [matchRepoAt, matchLit_append, Option.some_bind]
  rw [takeWhile_append_stop _ hp2 hh, dropWhile_append_stop _ hp2 hh]
  rw [if_neg hp, expectChar_cons, Option.some_bind]
  show (if (q = 'f' ∨ q = 'w' ∨ q = 's' ∨ q = 'm') ∧
      d1.isDigit ∧ d2.isDigit ∧ '-' = '-' ∧ t1.isDigit ∧ t2.isDigit
    then some (⟨projname, [q, d1, d2], [t1, t2]⟩ : RepoParts) else none) =
    some ⟨projname, [q, d1, d2], [t1, t2]⟩
  rw [if_pos ⟨hq, hd1, hd2, rfl, ht1, ht2⟩]

theorem matchRepoAt_pattern {s : List Char} {parts : RepoParts}
    (h : matchRepoAt s = some parts) : RepoPatternAt s := by
  unfold matchRepoAt at h
  cases hm : matchLit "proj-".data s with
  | none => rw [hm] at h; exact Option.noConfusion h
  | some r1 =>
    rw [hm, Option.some_bind] at h
    have hs : s = "proj-".data ++ r1 := matchLit_eq_some hm
    by_cases hp : r1.takeWhile notHyphen = []
    · rw [if_pos hp] at h; exact Option.noConfusion h
    · rw [if_neg hp] at h
      cases he : expectChar '-' (r1.dropWhile notHyphen) with
      | none => rw [he] at h; exact Option.noConfusion h
      | some r2 =>
        rw [he, Option.some_bind] at h
        have hr1 : r1.dropWhile notHyphen = '-' :: r2 := expectChar_eq_some he
        rcases r2 with _ | ⟨q, _ | ⟨d1, _ | ⟨d2, _ | ⟨h2, _ | ⟨t1, _ |
          ⟨t2, rest⟩⟩⟩⟩⟩⟩ <;> try exact Option.noConfusion h
        by_cases hc : (q = 'f' ∨ q = 'w' ∨ q = 's' ∨ q = 'm') ∧
            d1.isDigit ∧ d2.isDigit ∧ h2 = '-' ∧ t1.isDigit ∧ t2.isDigit
        · obtain ⟨hq, hd1, hd2, hh2, ht1, ht2⟩ := hc
          subst hh2
          have e1 : r1 = r1.takeWhile notHyphen ++
              '-' :: q :: d1 :: d2 :: '-' :: t1 :: t2 :: rest := by
            have h0 := (List.takeWhile_append_dropWhile notHyphen r1).symm
            rw [hr1] at h0
            exact h0
          refine ⟨r1.takeWhile notHyphen, q, d1, d2, t1, t2, rest, ?_, hp,
            ?_, hq, hd1, hd2, ht1, ht2⟩
          · rw [hs]
            conv_lhs => rw [e1]
          · intro x hx
            have := mem_of_takeWhile hx
            simpa [notHyphen] using this
        · have h' : (if (q = 'f' ∨ q = 'w' ∨ q = 's' ∨ q = 'm') ∧
              d1.isDigit ∧ d2.isDigit ∧ h2 = '-' ∧ t1.isDigit ∧ t2.isDigit
              then some (⟨r1.takeWhile notHyphen, [q, d1, d2],
                [t1, t2]⟩ : RepoParts) else none) = some parts := h
          rw [if_neg hc] at h'
          exact Option.noConfusion h'

theorem pattern_matchRepoAt {s : List Char} (h : RepoPatternAt s) :
    ∃ parts, matchRepoAt s = some parts := by
  obtain ⟨projname, q, d1, d2, t1, t2, rest, hdec, hp, hp', hq, hd1, hd2,
    ht1, ht2⟩ := h
  exact ⟨⟨projname, [q, d1, d2], [t1, t2]⟩,
    hdec ▸ matchRepoAt_compute rest hp hp' hq hd1 hd2 ht1 ht2⟩

theorem get_parts_eq_none_iff {s : List Char} :
    get_parts_from_repo_name s = none ↔ ¬ ContainsRepoPattern s := by
  unfold get_parts_from_repo_name
  rw [reSearch_eq_none_iff]
  constructor
  · rintro h ⟨pre, tail, hdec, hpat⟩
    obtain ⟨parts, hm⟩ := pattern_matchRepoAt hpat
    have hn := h pre tail hdec
    rw [hm] at hn
    exact Option.noConfusion hn
  · intro h pre tail hdec
    cases hm : matchRepoAt tail with
    | none => rfl
    | some parts => exact absurd ⟨pre, tail, hdec, matchRepoAt_pattern hm⟩ h

/-! ## The deployment-link matcher against the code's pattern -/

theorem matchDokkuAt_compute {appname : List Char} {d1 d2 a1 a2 a3 : Char}
    (rest : List Char) (ha : appname ≠ []) (ha' : ∀ c ∈ appname, c ≠ '.')
    (hd1 : d1.isDigit) (hd2 : d2.isDigit)
    (h1 : a1 ≠ '\n') (h2 : a2 ≠ '\n') (h3 : a3 ≠ '\n') :
    matchDokkuAt ("https://".data ++ (appname ++ '.' :: ("dokku-".data ++
        d1 :: d2 :: a1 :: 'c' :: 's' :: a2 :: 'u' :: 'c' :: 's' :: 'b' ::
        a3 :: 'e' :: 'd' :: 'u' :: rest))) = some ⟨appname, [d1, d2]⟩ := by
  have ha2 : ∀ c ∈ appname, notDot c = true := fun c hc => by
    simp [notDot, ha' c hc]
  have hdot : notDot '.' = false := by decide
  simp only [matchDokkuAt, matchLit_append, Option.some_bind]
  rw [takeWhile_append_stop _ ha2 hdot, dropWhile_append_stop _ ha2 hdot]
  rw [if_neg ha, expectChar_cons, Option.some_bind]
  rw [matchLit_append, Option.some_bind]
  show (if d1.isDigit ∧ d2.isDigit ∧ a1 ≠ '\n' ∧ 'c' = 'c' ∧ 's' = 's' ∧
      a2 ≠ '\n' ∧ 'u' = 'u' ∧ 'c' = 'c' ∧ 's' = 's' ∧ 'b' = 'b' ∧
      a3 ≠ '\n' ∧ 'e' = 'e' ∧ 'd' = 'd' ∧ 'u' = 'u'
    then some (⟨appname, [d1, d2]⟩ : DokkuLink) else none) =
    some ⟨appname, [d1, d2]⟩
  rw [if_pos ⟨hd1, hd2, h1, rfl, rfl, h2, rfl, rfl, rfl, rfl, h3, rfl,
    rfl, rfl⟩]

theorem matchDokkuAt_codeLink {s : List Char} {l : DokkuLink}
    (h : matchDokkuAt s = some l) : CodeLinkAtIs s l := by
  unfold matchDokkuAt at h
  cases hm : matchLit "https://".data s with
  | none => rw [hm] at h; exact Option.noConfusion h
  | some r1 =>
    rw [hm, Option.some_bind] at h
    have hs : s = "https://".data ++ r1 := matchLit_eq_some hm
    by_cases ha : r1.takeWhile notDot = []
    · rw [if_pos ha] at h; exact Option.noConfusion h
    · rw [if_neg ha] at h
      cases he : expectChar '.' (r1.dropWhile notDot) with
      | none => rw [he] at h; exact Option.noConfusion h
      | some r2 =>
        rw [he, Option.some_bind] at h
        have hr1 : r1.dropWhile notDot = '.' :: r2 := expectChar_eq_some he
        cases hm2 : matchLit "dokku-".data r2 with
        | none => rw [hm2] at h; exact Option.noConfusion h
        | some r3 =>
          rw [hm2, Option.some_bind] at h
          have hr2 : r2 = "dokku-".data ++ r3 := matchLit_eq_some hm2
          rcases r3 with _ | ⟨d1, _ | ⟨d2, _ | ⟨a1, _ | ⟨c1, _ | ⟨s1, _ |
            ⟨a2, _ | ⟨u1, _ | ⟨c2, _ | ⟨s2, _ | ⟨b1, _ | ⟨a3, _ | ⟨e1, _ |
            ⟨d3, _ | ⟨u2, r4⟩⟩⟩⟩⟩⟩⟩⟩⟩⟩⟩⟩⟩⟩ <;>
            try exact Option.noConfusion h
          have h' : (if d1.isDigit ∧ d2.isDigit ∧
              a1 ≠ '\n' ∧ c1 = 'c' ∧ s1 = 's' ∧
              a2 ≠ '\n' ∧ u1 = 'u' ∧ c2 = 'c' ∧ s2 = 's' ∧ b1 = 'b' ∧
              a3 ≠ '\n' ∧ e1 = 'e' ∧ d3 = 'd' ∧ u2 = 'u'
              then some (⟨r1.takeWhile notDot, [d1, d2]⟩ : DokkuLink)
              else none) = some l := h
          by_cases hc : d1.isDigit ∧ d2.isDigit ∧ a1 ≠ '\n' ∧ c1 = 'c' ∧
              s1 = 's' ∧ a2 ≠ '\n' ∧ u1 = 'u' ∧ c2 = 'c' ∧ s2 = 's' ∧
              b1 = 'b' ∧ a3 ≠ '\n' ∧ e1 = 'e' ∧ d3 = 'd' ∧ u2 = 'u'
          · rw [if_pos hc] at h'
            obtain ⟨hd1, hd2, h1, rfl, rfl, h2, rfl, rfl, rfl, rfl, h3,
              rfl, rfl, rfl⟩ := hc
            obtain rfl : l = ⟨r1.takeWhile notDot, [d1, d2]⟩ :=
              (Option.some.inj h').symm
            have e1 : r1 = r1.takeWhile notDot ++ '.' :: r2 := by
              have h0 := (List.takeWhile_append_dropWhile notDot r1).symm
              rw [hr1] at h0
              exact h0
            refine ⟨d1, d2, a1, a2, a3, r4, ?_, rfl, ha, ?_, hd1, hd2,
              h1, h2, h3⟩
            · rw [hs]
              conv_lhs => rw [e1, hr2]
            · intro x hx
              have := mem_of_takeWhile hx
              simpa [notDot] using this
          · rw [if_neg hc] at h'
            exact Option.noConfusion h'

theorem codeLink_matchDokkuAt {s : List Char} {l : DokkuLink}
    (h : CodeLinkAtIs s l) : matchDokkuAt s = some l := by
  obtain ⟨app, num⟩ := l
  obtain ⟨d1, d2, a1, a2, a3, rest, hdec, hnum, ha, ha', hd1, hd2, h1, h2,
    h3⟩ := h
  have hnum' : num = [d1, d2] := hnum
  subst hnum'
  rw [hdec]
  exact matchDokkuAt_compute rest ha ha' hd1 hd2 h1 h2 h3

theorem dokku_search_eq_none_iff {body : List Char} :
    reSearch matchDokkuAt body = none ↔ ¬ ContainsCodeLink body := by
  rw [reSearch_eq_none_iff]
  constructor
  · rintro h ⟨pre, tail, hdec, l, hlink⟩
    have hn := h pre tail hdec
    rw [codeLink_matchDokkuAt hlink] at hn
    exact Option.noConfusion hn
  · intro h pre tail hdec
    cases hm : matchDokkuAt tail with
    | none => rfl
    | some l =>
      exact absurd ⟨pre, tail, hdec, l, matchDokkuAt_codeLink hm⟩ h

theorem dokku_search_first_match {body : List Char} {l : DokkuLink}
    (h : reSearch matchDokkuAt body = some l) :
    ∃ pre tail, body = pre ++ tail ∧ CodeLinkAtIs tail l ∧
      ∀ pre' tail', body = pre' ++ tail' → pre'.length < pre.length →
        ¬ CodeLinkAt tail' := by
  obtain ⟨pre, tail, hdec, hsome, hmin⟩ := reSearch_eq_some h
  refine ⟨pre, tail, hdec, matchDokkuAt_codeLink hsome, ?_⟩
  rintro pre' tail' hdec' hlt ⟨l', hl'⟩
  have hn := hmin pre' tail' hdec' hlt
  rw [codeLink_matchDokkuAt hl'] at hn
  exact Option.noConfusion hn

/-! ## Claim theorems -/

/-- Claim C1: in the full build, for a fetched PR record whose body yields
a deployment link with slot number `s` and a repository name that parses
to team number `t`: if `s ≠ "00"` and `s ≠ t`, the build fails with the
team/slot mismatch error naming the slot, the team number and the
repository name; if `s = "00"`, no mismatch error is raised for any `t`
and (the branch being present) the descriptor is built with
`dokku = "00"`; if `s = t`, the check passes (no mismatch error). -/
theorem c1_team_slot_consistency (GITHUB_TOKEN raw_pr_url : List Char)
    (response : HttpResponse) (comps : PRComponents) (link : DokkuLink)
    (parts : RepoParts)
    (hsep : separate_raw_pr_url raw_pr_url = .ok comps)
    (hst : response.status_code = 200)
    (hlink : get_dokku_link_from_pr_data response.json = some link)
    (hparts : get_parts_from_repo_name comps.repo = some parts) :
    (link.dokku_num ≠ "00".data → link.dokku_num ≠ parts.team_num →
      get_dokku_command_elements_from_raw_pr_url GITHUB_TOKEN raw_pr_url
          response =
        .error (.teamSlotMismatch link.dokku_num parts.team_num comps.repo))
    ∧ (link.dokku_num = "00".data →
        (∀ a b c, get_dokku_command_elements_from_raw_pr_url GITHUB_TOKEN
            raw_pr_url response ≠ .error (.teamSlotMismatch a b c))
        ∧ ∀ branch, response.json.head_ref = some branch →
            get_dokku_command_elements_from_raw_pr_url GITHUB_TOKEN
                raw_pr_url response =
              .ok ⟨link.appname, "00".data, repoUrlOf comps, branch,
                   comps.org, comps.repo, raw_pr_url⟩)
    ∧ (link.dokku_num = parts.team_num →
        ∀ a b c, get_dokku_command_elements_from_raw_pr_url GITHUB_TOKEN
          raw_pr_url response ≠ .error (.teamSlotMismatch a b c)) := by
  refine ⟨fun h00 hmm => ?_, fun h00 => ⟨fun a b c => ?_,
    fun branch hbr => ?_⟩, fun heq a b c => ?_⟩
  · simp [get_dokku_command_elements_from_raw_pr_url,
      get_pr_from_raw_pr_url, hsep, hst, hlink, hparts, h00, hmm]
  · cases hbr : response.json.head_ref <;>
      simp [get_dokku_command_elements_from_raw_pr_url,
        get_pr_from_raw_pr_url, hsep, hst, hlink, h00, hbr]
  · simp [get_dokku_command_elements_from_raw_pr_url,
      get_pr_from_raw_pr_url, hsep, hst, hlink, h00, hbr]
  · by_cases h00 : link.dokku_num = "00".data <;>
      cases hbr : response.json.head_ref <;>
      simp [get_dokku_command_elements_from_raw_pr_url,
        get_pr_from_raw_pr_url, hsep, hst, hlink, hparts, h00, heq, hbr]

/-- Claim C1 witness: slot `05` against team `10` in
`proj-dining-s25-10` fails with the mismatch error naming both numbers
and the repository. -/
theorem c1_team_slot_consistency_witness :
    get_dokku_command_elements_from_raw_pr_url "token".data
        "https://github.com/ucsb-cs156/proj-dining-s25-10/pull/46".data
        ⟨200, [], ⟨some "Deployed: https://myapp.dokku-05.cs.ucsb.edu".data,
          some "feature".data, []⟩⟩ =
      .error (.teamSlotMismatch "05".data "10".data
        "proj-dining-s25-10".data) :=
  (c1_team_slot_consistency "token".data
    "https://github.com/ucsb-cs156/proj-dining-s25-10/pull/46".data
    ⟨200, [], ⟨some "Deployed: https://myapp.dokku-05.cs.ucsb.edu".data,
      some "feature".data, []⟩⟩
    ⟨"ucsb-cs156".data, "proj-dining-s25-10".data, "46".data⟩
    ⟨"myapp".data, "05".data⟩ ⟨"dining".data, "s25".data, "10".data⟩
    (by decide) (by decide) (by decide) (by decide)).1
    (by decide) (by decide)

/-- Claim C2 (amended): when the extractor finds no deployment link in the
fetched record's body, the full build fails — but with the unnamed Python
`TypeError` of subscripting the `None` extractor result (the optional
value is accessed unconditionally at the consistency check), not with the
specification's named missing-deployment-link error; no descriptor is
returned. -/
theorem c2_missing_link_behavior (GITHUB_TOKEN raw_pr_url : List Char)
    (response : HttpResponse) (comps : PRComponents)
    (hsep : separate_raw_pr_url raw_pr_url = .ok comps)
    (hst : response.status_code = 200)
    (hlink : get_dokku_link_from_pr_data response.json = none) :
    get_dokku_command_elements_from_raw_pr_url GITHUB_TOKEN raw_pr_url
        response = .error .typeErrorNoneSubscript := by
  simp [get_dokku_command_elements_from_raw_pr_url, get_pr_from_raw_pr_url,
    hsep, hst, hlink]

/-- Claim C2 witness: a record whose body has no deployment link makes the
full build fail with the `None`-subscript `TypeError`. -/
theorem c2_missing_link_behavior_witness :
    get_dokku_command_elements_from_raw_pr_url "token".data
        "https://github.com/org2/somerepo/pull/3".data
        ⟨200, [], ⟨some "nothing".data, some "dev".data, []⟩⟩ =
      .error .typeErrorNoneSubscript :=
  c2_missing_link_behavior "token".data
    "https://github.com/org2/somerepo/pull/3".data
    ⟨200, [], ⟨some "nothing".data, some "dev".data, []⟩⟩
    ⟨"org2".data, "somerepo".data, "3".data⟩
    (by decide) (by decide) (by decide)

/-- Claim C2 counterexample: on a fetched record with no deployment link
the full build fails with the `None`-subscript `TypeError`, not with the
named missing-deployment-link error the claim requires. -/
theorem c2_missing_link_counterexample :
    get_dokku_link_from_pr_data
        ⟨some "no link here".data, some "main".data, []⟩ = none ∧
    get_dokku_command_elements_from_raw_pr_url "token".data
        "https://github.com/org/proj-dining-s25-10/pull/9".data
        ⟨200, [], ⟨some "no link here".data, some "main".data, []⟩⟩ =
      .error .typeErrorNoneSubscript ∧
    get_dokku_command_elements_from_raw_pr_url "token".data
        "https://github.com/org/proj-dining-s25-10/pull/9".data
        ⟨200, [], ⟨some "no link here".data, some "main".data, []⟩⟩ ≠
      .error .missingDeploymentLink := by
  decide

/-- Claim C3 (amended): `separate_raw_pr_url` fails with the malformed-URL
error (reporting the raw string) exactly when no prefix of the input
matches `https://github.com/<org>/<repo>/pull/<digits>` — the match is
anchored at the start only, so a URL whose path continues past the
pull-request number is accepted, the trailing text being ignored; whenever
a reference is returned the input does carry such a prefix. -/
theorem c3_url_shape_behavior (raw_pr_url : List Char) :
    (separate_raw_pr_url raw_pr_url = .error (.malformedURL raw_pr_url) ↔
      ¬ PrUrlPrefixShape raw_pr_url) ∧
    (∀ comps, separate_raw_pr_url raw_pr_url = .ok comps →
      PrUrlPrefixShape raw_pr_url) := by
  constructor
  · constructor
    · intro herr hshape
      obtain ⟨c, hc⟩ := shape_matchPrUrl hshape
      simp [separate_raw_pr_url, hc] at herr
    · intro hnshape
      cases hm : matchPrUrl raw_pr_url with
      | none => simp [separate_raw_pr_url, hm]
      | some c => exact absurd (matchPrUrl_shape hm) hnshape
  · intro comps hok
    cases hm : matchPrUrl raw_pr_url with
    | none => simp [separate_raw_pr_url, hm] at hok
    | some c => exact matchPrUrl_shape hm

/-- Claim C3 witness: a string with no URL-shaped prefix is rejected, so
it has no decomposition of the prefix shape. -/
theorem c3_url_shape_behavior_witness :
    ¬ PrUrlPrefixShape "not a url".data :=
  (c3_url_shape_behavior "not a url".data).1.mp (by decide)

/-- Claim C3 counterexample: `https://github.com/o/r/pull/4/files` is not
of the exact fixed shape (its path continues past the pull-request
number), yet decomposition returns a reference for it instead of failing
with the malformed-URL error. -/
theorem c3_url_shape_counterexample :
    exactPrUrlShape "https://github.com/o/r/pull/4/files".data = false ∧
    separate_raw_pr_url "https://github.com/o/r/pull/4/files".data =
      .ok ⟨"o".data, "r".data, "4".data⟩ := by
  decide

/-- Claim C4: decomposing any URL of the exact shape
`https://github.com/<Org>/<Repo>/pull/<digits>` returns the organization
and repository segments lowercased, whatever their input casing, and the
digit string as the pull-request number; in particular the spec's
mixed-case example. -/
theorem c4_decompose_lowercase :
    (∀ org repo num : List Char,
      org ≠ [] → (∀ c ∈ org, c ≠ '/') →
      repo ≠ [] → (∀ c ∈ repo, c ≠ '/') →
      num ≠ [] → (∀ c ∈ num, c.isDigit) →
      separate_raw_pr_url ("https://github.com/".data ++
          (org ++ '/' :: (repo ++ ("/pull/".data ++ num)))) =
        .ok ⟨pyLower org, pyLower repo, num⟩) ∧
    separate_raw_pr_url "https://github.com/OrgX/RepoY/pull/7".data =
      .ok ⟨"orgx".data, "repoy".data, "7".data⟩ := by
  constructor
  · intro org repo num ho ho' hr hr' hn hn'
    have hm := matchPrUrl_compute ([] : List Char) ho ho' hr hr' hn hn'
    rw [List.append_nil] at hm
    rw [takeWhile_of_all hn'] at hm
    have hstrip : pyStrip num = num :=
      pyStrip_of_no_space
        (fun c hc => isPySpace_eq_false_of_isDigit (hn' c hc))
    unfold separate_raw_pr_url
    rw [hm]
    simp [hstrip]
  · decide

/-- Claim C4 witness: the spec's mixed-case example, assembled from its
segments. -/
theorem c4_decompose_lowercase_witness :
    separate_raw_pr_url ("https://github.com/".data ++
        ("OrgX".data ++ '/' :: ("RepoY".data ++ ("/pull/".data ++
          "7".data)))) =
      .ok ⟨pyLower "OrgX".data, pyLower "RepoY".data, "7".data⟩ :=
  c4_decompose_lowercase.1 "OrgX".data "RepoY".data "7".data (by decide)
    (by decide) (by decide) (by decide) (by decide) (by decide)

/-- Claim C5: `proj-dining-s25-10` parses to project `dining`, term `s25`
and team `10`; every repository name containing no instance of the
`proj-<project>-<term><yy>-<team>` pattern parses to absent (`none`)
rather than failing. -/
theorem c5_repo_name_parse :
    get_parts_from_repo_name "proj-dining-s25-10".data =
      some ⟨"dining".data, "s25".data, "10".data⟩ ∧
    ∀ s, ¬ ContainsRepoPattern s → get_parts_from_repo_name s = none := by
  refine ⟨by decide, fun s h => get_parts_eq_none_iff.mpr h⟩

/-- Claim C5 witness: a name with no instance of the pattern parses to
absent. -/
theorem c5_repo_name_parse_witness :
    get_parts_from_repo_name "hello".data = none :=
  c5_repo_name_parse.2 "hello".data (get_parts_eq_none_iff.mp (by decide))

/-- Claim C6 (amended): the extractor searches the record's body (the
empty string when the field is absent) anywhere, not anchored, for the
first substring matching the code's pattern
`https://<app-name>.dokku-<NN>` followed by `cs`, `ucsb`, `edu` each
preceded by ANY single non-newline character — the source leaves the three
domain dots unescaped, so they are wildcards, not the literal dots of
`.cs.ucsb.edu`.  Extraction is absent exactly when the body contains no
instance of that pattern; a returned link is the leftmost instance; the
spec's literal example yields app `myapp` and slot `10`. -/
theorem c6_link_extraction_behavior :
    (∀ hr ex, get_dokku_link_from_pr_data ⟨none, hr, ex⟩ =
      get_dokku_link_from_pr_data ⟨some [], hr, ex⟩) ∧
    (∀ body hr ex,
      (get_dokku_link_from_pr_data ⟨some body, hr, ex⟩ = none ↔
        ¬ ContainsCodeLink body) ∧
      (∀ l, get_dokku_link_from_pr_data ⟨some body, hr, ex⟩ = some l →
        ∃ pre tail, body = pre ++ tail ∧ CodeLinkAtIs tail l ∧
          ∀ pre' tail', body = pre' ++ tail' → pre'.length < pre.length →
            ¬ CodeLinkAt tail')) ∧
    get_dokku_link_from_pr_data
        ⟨some "See https://myapp.dokku-10.cs.ucsb.edu here".data, none, []⟩
      = some ⟨"myapp".data, "10".data⟩ := by
  refine ⟨fun hr ex => rfl, fun body hr ex =>
    ⟨dokku_search_eq_none_iff, fun l hl => dokku_search_first_match hl⟩,
    by decide⟩

/-- Claim C6 witness: a body with no instance of the code's pattern
yields an absent extraction. -/
theorem c6_link_extraction_behavior_witness :
    get_dokku_link_from_pr_data ⟨some "hello world".data, none, []⟩ =
      none :=
  (c6_link_extraction_behavior.2.1 "hello world".data none []).1.mpr
    (dokku_search_eq_none_iff.mp (by decide))

/-- Claim C6 counterexample: this body contains no substring of the
claimed literal form — there is no dot at all after the slot digits, so
no literal `.cs.ucsb.edu` — yet the extractor returns a link, because the
unescaped dots of the source pattern match the separators `X`, `!`, `?`. -/
theorem c6_link_extraction_counterexample :
    claimContainsLink
        "Deployed to https://myapp.dokku-10Xcs!ucsb?edu today".data =
      false ∧
    get_dokku_link_from_pr_data
        ⟨some "Deployed to https://myapp.dokku-10Xcs!ucsb?edu today".data,
          none, []⟩ = some ⟨"myapp".data, "10".data⟩ := by
  decide

/-- Claim C7 (amended): for a fetched PR record lacking `head.ref`, the
reduced build fails with the branch-not-found error naming the original
raw URL, and the full build does the same provided the slot consistency
check is passed first — the deployment link is present and its slot is
the sentinel `"00"` or equals the parsed team number.  (When the link is
absent or mismatched, that earlier failure preempts the branch error.) -/
theorem c7_branch_missing_behavior (GITHUB_TOKEN raw_pr_url : List Char)
    (response : HttpResponse) (comps : PRComponents)
    (hsep : separate_raw_pr_url raw_pr_url = .ok comps)
    (hst : response.status_code = 200)
    (hbr : response.json.head_ref = none) :
    get_repo_and_branch_from_raw_pr_url GITHUB_TOKEN raw_pr_url response =
      .error (.branchNotFound raw_pr_url) ∧
    ∀ link, get_dokku_link_from_pr_data response.json = some link →
      (link.dokku_num = "00".data ∨
        ∃ parts, get_parts_from_repo_name comps.repo = some parts ∧
          link.dokku_num = parts.team_num) →
      get_dokku_command_elements_from_raw_pr_url GITHUB_TOKEN raw_pr_url
        response = .error (.branchNotFound raw_pr_url) := by
  constructor
  · simp [get_repo_and_branch_from_raw_pr_url, get_pr_from_raw_pr_url,
      hsep, hst, hbr]
  · rintro link hlink (h00 | ⟨parts, hparts, heq⟩)
    · simp [get_dokku_command_elements_from_raw_pr_url,
        get_pr_from_raw_pr_url, hsep, hst, hlink, h00, hbr]
    · by_cases h00 : link.dokku_num = "00".data
      · simp [get_dokku_command_elements_from_raw_pr_url,
          get_pr_from_raw_pr_url, hsep, hst, hlink, h00, hbr]
      · simp [get_dokku_command_elements_from_raw_pr_url,
          get_pr_from_raw_pr_url, hsep, hst, hlink, hparts, h00, heq, hbr]

/-- Claim C7 witness: a record with a body but no `head.ref` makes the
reduced build fail with the branch error naming the URL. -/
theorem c7_branch_missing_behavior_witness :
    get_repo_and_branch_from_raw_pr_url "token".data
        "https://github.com/o7/r7/pull/8".data
        ⟨200, [], ⟨some "b".data, none, []⟩⟩ =
      .error (.branchNotFound "https://github.com/o7/r7/pull/8".data) :=
  (c7_branch_missing_behavior "token".data
    "https://github.com/o7/r7/pull/8".data
    ⟨200, [], ⟨some "b".data, none, []⟩⟩
    ⟨"o7".data, "r7".data, "8".data⟩ (by decide) (by decide) (by decide)).1

/-- Claim C7 counterexample: a record lacking `head.ref` whose link slot
`05` mismatches team `10`: the full build fails with the team/slot
mismatch error, not with the branch error the claim requires for every
record lacking `head.ref`. -/
theorem c7_branch_missing_counterexample :
    (⟨some "x https://myapp.dokku-05.cs.ucsb.edu".data, none, []⟩ :
      PRData).head_ref = none ∧
    get_dokku_command_elements_from_raw_pr_url "token".data
        "https://github.com/org3/proj-dining-s25-10/pull/5".data
        ⟨200, [], ⟨some "x https://myapp.dokku-05.cs.ucsb.edu".data, none,
          []⟩⟩ =
      .error (.teamSlotMismatch "05".data "10".data
        "proj-dining-s25-10".data) ∧
    get_dokku_command_elements_from_raw_pr_url "token".data
        "https://github.com/org3/proj-dining-s25-10/pull/5".data
        ⟨200, [], ⟨some "x https://myapp.dokku-05.cs.ucsb.edu".data, none,
          []⟩⟩ ≠
      .error (.branchNotFound
        "https://github.com/org3/proj-dining-s25-10/pull/5".data) := by
  decide

/-- Claim C8: with a well-formed URL, the fetch returns the parsed
response document verbatim exactly when the status is 200, and any
non-200 status fails with the remote-fetch error carrying the numeric
status and the raw response body.  (The embedding performs the single
request of the source; no retry path exists.) -/
theorem c8_fetch_status (GITHUB_TOKEN raw_pr_url : List Char)
    (comps : PRComponents) (response : HttpResponse)
    (hsep : separate_raw_pr_url raw_pr_url = .ok comps) :
    (response.status_code = 200 →
      get_pr_from_raw_pr_url GITHUB_TOKEN raw_pr_url response =
        .ok response.json) ∧
    (response.status_code ≠ 200 →
      get_pr_from_raw_pr_url GITHUB_TOKEN raw_pr_url response =
        .error (.remoteFetch response.status_code response.text)) := by
  constructor
  · intro h200
    simp [get_pr_from_raw_pr_url, hsep, h200]
  · intro hne
    simp [get_pr_from_raw_pr_url, hsep, hne]

/-- Claim C8 witness: a 404 response fails with the remote-fetch error
carrying status and body. -/
theorem c8_fetch_status_witness :
    get_pr_from_raw_pr_url "token".data
        "https://github.com/o8/r8/pull/2".data
        ⟨404, "not found".data, ⟨none, none, []⟩⟩ =
      .error (.remoteFetch 404 "not found".data) :=
  (c8_fetch_status "token".data "https://github.com/o8/r8/pull/2".data
    ⟨"o8".data, "r8".data, "2".data⟩
    ⟨404, "not found".data, ⟨none, none, []⟩⟩ (by decide)).2 (by decide)

/-- Claim C9: with the sentinel slot `"00"`, Python's `and`
short-circuits before `repo_name_components['team_num']` is ever
subscripted, so even when the repository-name parser returned absent the
full build raises no error from the missing team number and succeeds
(the branch being present), producing `dokku = "00"`. -/
theorem c9_sentinel_short_circuit (GITHUB_TOKEN raw_pr_url : List Char)
    (response : HttpResponse) (comps : PRComponents) (link : DokkuLink)
    (branch : List Char)
    (hsep : separate_raw_pr_url raw_pr_url = .ok comps)
    (hparts : get_parts_from_repo_name comps.repo = none)
    (hst : response.status_code = 200)
    (hlink : get_dokku_link_from_pr_data response.json = some link)
    (h00 : link.dokku_num = "00".data)
    (hbr : response.json.head_ref = some branch) :
    get_dokku_command_elements_from_raw_pr_url GITHUB_TOKEN raw_pr_url
        response =
      .ok ⟨link.appname, "00".data, repoUrlOf comps, branch, comps.org,
           comps.repo, raw_pr_url⟩ := by
  simp [get_dokku_command_elements_from_raw_pr_url, get_pr_from_raw_pr_url,
    hsep, hst, hlink, h00, hbr]

/-- Claim C9 witness: repository `plainrepo` does not parse, the link
slot is `00`, and the build still succeeds with `dokku = "00"`. -/
theorem c9_sentinel_short_circuit_witness :
    get_dokku_command_elements_from_raw_pr_url "token".data
        "https://github.com/org9/plainrepo/pull/2".data
        ⟨200, [], ⟨some "see https://app9.dokku-00.cs.ucsb.edu".data,
          some "main".data, []⟩⟩ =
      .ok ⟨"app9".data, "00".data,
           repoUrlOf ⟨"org9".data, "plainrepo".data, "2".data⟩,
           "main".data, "org9".data, "plainrepo".data,
           "https://github.com/org9/plainrepo/pull/2".data⟩ :=
  c9_sentinel_short_circuit "token".data
    "https://github.com/org9/plainrepo/pull/2".data
    ⟨200, [], ⟨some "see https://app9.dokku-00.cs.ucsb.edu".data,
      some "main".data, []⟩⟩
    ⟨"org9".data, "plainrepo".data, "2".data⟩ ⟨"app9".data, "00".data⟩
    "main".data (by decide) (by decide) (by decide) (by decide)
    (by decide) (by decide)

/-- Claim C10: the reduced build depends on the fetched PR record only
through its `head.ref` field — two 200 responses whose parsed records
agree on `head.ref` produce identical output on the same URL and
credential, whatever their bodies, extra fields or raw texts. -/
theorem c10_reduced_head_ref_only (GITHUB_TOKEN raw_pr_url : List Char)
    (t1 t2 : List Char) (r1 r2 : PRData) (h : r1.head_ref = r2.head_ref) :
    get_repo_and_branch_from_raw_pr_url GITHUB_TOKEN raw_pr_url
        ⟨200, t1, r1⟩ =
      get_repo_and_branch_from_raw_pr_url GITHUB_TOKEN raw_pr_url
        ⟨200, t2, r2⟩ := by
  cases hsep : separate_raw_pr_url raw_pr_url with
  | error e =>
    simp [get_repo_and_branch_from_raw_pr_url, get_pr_from_raw_pr_url,
      hsep]
  | ok comps =>
    simp only [get_repo_and_branch_from_raw_pr_url,
      get_pr_from_raw_pr_url, hsep]
    simp [h]

/-- Claim C10 witness: records differing in body, extra fields and
response text but agreeing on `head.ref` give the same reduced output. -/
theorem c10_reduced_head_ref_only_witness :
    get_repo_and_branch_from_raw_pr_url "token".data
        "https://github.com/ox/rx/pull/1".data
        ⟨200, "tA".data, ⟨some "body A".data, some "dev".data,
          [("k".data, "v".data)]⟩⟩ =
      get_repo_and_branch_from_raw_pr_url "token".data
        "https://github.com/ox/rx/pull/1".data
        ⟨200, "tB".data, ⟨none, some "dev".data, []⟩⟩ :=
  c10_reduced_head_ref_only "token".data
    "https://github.com/ox/rx/pull/1".data "tA".data "tB".data
    ⟨some "body A".data, some "dev".data, [("k".data, "v".data)]⟩
    ⟨none, some "dev".data, []⟩ rfl
